import Mathlib

/-!
Verification development for the whisper transcription server
(src/plugins/telnyx-voice/whisper-server.py).

The Python source is shallowly embedded:
- raw bytes are lists of naturals (a byte value is reduced mod 256 where it
  is reinterpreted as part of a 16-bit sample);
- audio samples are rationals (exact model of the float computations);
- fallible code returns Except String, the String being the rendering of the
  Python exception message (a bare exception, such as the end-of-file or the
  bad-seek one, renders as the empty string);
- the WAV container parsing performed by the standard wave module (together
  with the chunk reader it builds on) is embedded faithfully for the paths
  read_wav_bytes exercises: RIFF header check, WAVE id check, chunk walk,
  fmt chunk field checks, data chunk location, and frame reading limited by
  both the declared chunk size and the bytes actually present;
- numpy frombuffer with a 16-bit signed element type fails unless the byte
  count is even, and otherwise reinterprets consecutive little-endian byte
  pairs as signed 16-bit integers;
- numpy integer array indexing fails on an index outside [-len, len) and
  wraps a negative index, which npIndex models.
-/

namespace WhisperServer

/-- Bytes of a file, most significant parts of the model work on these. -/
abbrev Bytes := List Nat

/-- Little-endian 16-bit read of two bytes. -/
def le16 (lo hi : Nat) : Nat := lo % 256 + 256 * (hi % 256)

/-- Little-endian 32-bit read of the first four entries of a byte list. -/
def le32 (b : Bytes) : Nat :=
  le16 (b.getD 0 0) (b.getD 1 0) + 65536 * le16 (b.getD 2 0) (b.getD 3 0)

/-- Reinterpret a value below 65536 as a signed 16-bit integer, as
numpy does when a buffer is read with a signed 16-bit element type. -/
def toInt16 (v : Nat) : Int :=
  if v % 65536 < 32768 then ((v % 65536 : Nat) : Int) else ((v % 65536 : Nat) : Int) - 65536

/-- Consecutive little-endian byte pairs as signed 16-bit integers. -/
def int16Pairs : Bytes → List Int
  | lo :: hi :: rest => toInt16 (le16 lo hi) :: int16Pairs rest
  | _ => []

/-- Model of numpy frombuffer with a signed 16-bit element type: the byte
count must be a multiple of the element size. -/
def npFrombufferInt16 (bs : Bytes) : Except String (List Int) :=
  if bs.length % 2 = 0 then .ok (int16Pairs bs)
  else .error "buffer size must be a multiple of element size"

/-- The four bytes of the RIFF chunk id. -/
def riffId : Bytes := [82, 73, 70, 70]

/-- The four bytes of the WAVE form id. -/
def waveId : Bytes := [87, 65, 86, 69]

/-- The four bytes of the fmt chunk id. -/
def fmtId : Bytes := [102, 109, 116, 32]

/-- The four bytes of the data chunk id. -/
def dataId : Bytes := [100, 97, 116, 97]

/-- Result of a successful wave open: the fmt chunk fields the reader keeps,
the declared data chunk size, and the readable data region (declared size cut
to the bytes actually present). -/
structure WavInfo where
  nchannels : Nat
  sampwidth : Nat
  framerate : Nat
  dataSize : Nat
  data : Bytes
deriving DecidableEq

/-- Frame size in bytes: channels times sample width. -/
def WavInfo.framesize (w : WavInfo) : Nat := w.nchannels * w.sampwidth

/-- Frame count: declared data chunk size divided by the frame size. -/
def WavInfo.nframes (w : WavInfo) : Nat := w.dataSize / w.framesize

/-- Fields kept from the fmt chunk. -/
structure FmtInfo where
  nchannels : Nat
  framerate : Nat
  sampwidth : Nat
deriving DecidableEq

/-- Model of the wave module fmt chunk reader, applied to the readable
content of the fmt chunk: a 14-byte read (format tag, channels, frame rate,
byte rate, block align), the PCM format check, a 2-byte read of the bit
depth, and the width and channel checks, in source order.  A short read
surfaces as the bare end-of-file error, whose rendered description is
empty.  The format tag check admits plain PCM only, as in the Python
releases before 3.12; later ones also admit the extensible PCM tag, a
branch no theorem here relies on. -/
def readFmtChunk (content : Bytes) : Except String FmtInfo :=
  if content.length < 14 then .error ""
  else
    let tag := le16 (content.getD 0 0) (content.getD 1 0)
    let nch := le16 (content.getD 2 0) (content.getD 3 0)
    let rate := le32 (content.drop 4)
    if tag ≠ 1 then .error ("unknown format: " ++ toString tag)
    else if content.length < 16 then .error ""
    else
      let bits := le16 (content.getD 14 0) (content.getD 15 0)
      let sw := (bits + 7) / 8
      if sw = 0 then .error "bad sample width"
      else if nch = 0 then .error "bad # of channels"
      else .ok ⟨nch, rate, sw⟩

/-- Model of the wave module chunk walk inside the RIFF chunk.  The walk
keeps a position inside the readable RIFF content (declared RIFF size cut to
the bytes present); a short chunk header ends the walk with the missing
chunk error, a fmt chunk is parsed and skipped (with the odd-size pad byte),
a data chunk ends the walk successfully, any other chunk is skipped.
Skipping past the declared RIFF size is the bare bad-seek error the chunk
reader raises, whose rendered description is empty.  The fuel only bounds the recursion; each step consumes at least
eight bytes of content so content length plus one never runs out. -/
def chunkLoop : Nat → Bytes → Nat → Nat → Option FmtInfo → Except String WavInfo
  | 0, _, _, _, _ => .error "internal: chunk walk out of fuel"
  | fuel + 1, content, riffSize, pos, fmtRead =>
    let nameB := (content.drop pos).take 4
    if nameB.length < 4 then .error "fmt chunk and/or data chunk missing"
    else
      let szB := (content.drop (pos + 4)).take 4
      if szB.length < 4 then .error "fmt chunk and/or data chunk missing"
      else
        let sz := le32 szB
        if nameB = fmtId then
          match readFmtChunk ((content.drop (pos + 8)).take sz) with
          | .error e => .error e
          | .ok f =>
            let newPos := pos + 8 + sz + sz % 2
            if riffSize < newPos then .error ""
            else chunkLoop fuel content riffSize newPos (some f)
        else if nameB = dataId then
          match fmtRead with
          | none => .error "data chunk before fmt chunk"
          | some f =>
            .ok ⟨f.nchannels, f.sampwidth, f.framerate, sz, (content.drop (pos + 8)).take sz⟩
        else
          let newPos := pos + 8 + sz + sz % 2
          if riffSize < newPos then .error ""
          else chunkLoop fuel content riffSize newPos fmtRead

/-- Model of opening WAV bytes with the wave module: read the outer chunk
header (a short read is the bare end-of-file error, of empty rendered
description), check the RIFF id, check the
WAVE form id through the outer chunk (so cut to the declared RIFF size), and
walk the inner chunks from position four of the RIFF content. -/
def waveOpen (bs : Bytes) : Except String WavInfo :=
  let nameB := bs.take 4
  if nameB.length < 4 then .error ""
  else
    let szB := (bs.drop 4).take 4
    if szB.length < 4 then .error ""
    else if nameB ≠ riffId then .error "file does not start with RIFF id"
    else
      let riffSize := le32 szB
      let content := (bs.drop 8).take riffSize
      if content.take 4 ≠ waveId then .error "not a WAVE file"
      else chunkLoop (content.length + 1) content riffSize 4 none

/-- Embedding of read_wav_bytes: open the WAV bytes, read all frames of the
data chunk (a read of frame count times frame size bytes, limited to the
readable data region), reinterpret the raw bytes as signed 16-bit samples,
and scale each by 1/32768 into a rational sample buffer, returned together
with the frame rate. -/
def read_wav_bytes (bs : Bytes) : Except String (List ℚ × Nat) :=
  match waveOpen bs with
  | .error e => .error e
  | .ok w =>
    match npFrombufferInt16 (w.data.take (w.nframes * w.framesize)) with
    | .error e => .error e
    | .ok ints => .ok (ints.map (fun (s : Int) => (s : ℚ) / 32768), w.framerate)

/-- Model of numpy integer-array indexing: a negative index wraps once by
the length, and an index outside the valid range raises. -/
def npIndex (xs : List ℚ) (i : Int) : Except String ℚ :=
  let j : Int := if i < 0 then (xs.length : Int) + i else i
  if 0 ≤ j ∧ j < (xs.length : Int) then .ok (xs.getD j.toNat 0)
  else .error "index out of bounds"

/-- Embedding of resample in its fallback path (the preferred band-limited
resampling capability absent): identical rates return the input; otherwise
the output length is the Python int truncation of length times ratio, and
each output entry is the linear interpolation of the two neighbouring input
entries, with indices computed exactly as the source does. -/
def resample (samples : List ℚ) (from_rate to_rate : Nat) : Except String (List ℚ) :=
  if from_rate = to_rate then .ok samples
  else
    let ratio : ℚ := (to_rate : ℚ) / (from_rate : ℚ)
    let n_out : Nat := (⌊(samples.length : ℚ) * ratio⌋).toNat
    (List.range n_out).mapM (fun (i : Nat) =>
      let p : ℚ := (i : ℚ) / ratio
      let left : Int := ⌊p⌋
      let frac : ℚ := p - (left : ℚ)
      let right : Int := min (left + 1) ((samples.length : Int) - 1)
      match npIndex samples left, npIndex samples right with
      | .ok sl, .ok sr => .ok (sl * (1 - frac) + sr * frac)
      | .error e, _ => .error e
      | _, .error e => .error e)

/-- A well-formed 44-byte WAV file: PCM, one channel, 8000 Hz, 16-bit, and a
data chunk of size zero, hence zero frames. -/
def zeroFrameWav : Bytes :=
  riffId ++ [36, 0, 0, 0] ++ waveId ++
  fmtId ++ [16, 0, 0, 0] ++
  [1, 0] ++ [1, 0] ++ [64, 31, 0, 0] ++ [128, 62, 0, 0] ++ [2, 0] ++ [16, 0] ++
  dataId ++ [0, 0, 0, 0]

/-- A well-formed WAV file: PCM, one channel, 8000 Hz, 16-bit, with two
frames holding the samples 16384 and 32768 (the latter reinterpreted as
-32768). -/
def twoSampleWav : Bytes :=
  riffId ++ [40, 0, 0, 0] ++ waveId ++
  fmtId ++ [16, 0, 0, 0] ++
  [1, 0] ++ [1, 0] ++ [64, 31, 0, 0] ++ [128, 62, 0, 0] ++ [2, 0] ++ [16, 0] ++
  dataId ++ [4, 0, 0, 0] ++ [0, 64, 0, 128]

/-- A well-formed WAV file: PCM, three channels, 8000 Hz, 8-bit, with one
frame of three bytes, so an odd byte count. -/
def oddByteWav : Bytes :=
  riffId ++ [39, 0, 0, 0] ++ waveId ++
  fmtId ++ [16, 0, 0, 0] ++
  [1, 0] ++ [3, 0] ++ [64, 31, 0, 0] ++ [192, 93, 0, 0] ++ [3, 0] ++ [8, 0] ++
  dataId ++ [3, 0, 0, 0] ++ [1, 2, 3]

/-- A well-formed WAV file: PCM, two channels, 44100 Hz, 16-bit, with one
frame of two interleaved samples 16384 and 49152 (the latter reinterpreted
as -16384). -/
def stereoWav : Bytes :=
  riffId ++ [40, 0, 0, 0] ++ waveId ++
  fmtId ++ [16, 0, 0, 0] ++
  [1, 0] ++ [2, 0] ++ [68, 172, 0, 0] ++ [16, 177, 2, 0] ++ [4, 0] ++ [16, 0] ++
  dataId ++ [4, 0, 0, 0] ++ [0, 64, 0, 192]

/-- Output of one call of the opaque transcription model: the per-segment
texts, the detected language, and the audio duration in seconds. -/
structure ModelOutput where
  segments : List String
  language : String
  duration : ℚ

/-- An inbound transcription request: the optional multipart audio file
field (the field named audio, when the form carries one) and the raw
request body. -/
structure Request where
  audioFile : Option Bytes
  body : Bytes

/-- Body of a response of the transcribe route: a JSON error object or the
JSON success object with text, language and duration fields. -/
inductive RespBody where
  | jsonError (msg : String)
  | jsonResult (text : String) (language : String) (duration : ℚ)
deriving DecidableEq

/-- A response: HTTP status code and body. -/
structure Response where
  status : Nat
  body : RespBody
deriving DecidableEq

/-- The audio payload of a request: the multipart audio field when present,
else the raw request body. -/
def payloadOf (req : Request) : Bytes :=
  match req.audioFile with
  | some b => b
  | none => req.body

/-- Embedding of the transcribe route handler.  The decoder, the resampler
and the model invocation it composes are parameters (so that reachability
facts, such as the decoder never running on an empty payload, are
expressible by quantifying over them); the server instantiates them with
read_wav_bytes, resample and the loaded model, the model being the process
global that is None until loading finishes.  The model text is the
space-joined list of stripped segment texts.  A failure the handler does not
catch (a resampler error) surfaces as the framework 500 response. -/
def transcribeHandler (decoder : Bytes → Except String (List ℚ × Nat))
    (resampler : List ℚ → Nat → Nat → Except String (List ℚ))
    (model : Option (List ℚ → ModelOutput)) (req : Request) : Response :=
  match model with
  | none => ⟨503, .jsonError "model not loaded"⟩
  | some m =>
    let audio_bytes := payloadOf req
    if audio_bytes.isEmpty then ⟨400, .jsonError "no audio data"⟩
    else
      match decoder audio_bytes with
      | .error e => ⟨400, .jsonError ("failed to read audio: " ++ e)⟩
      | .ok (samples, sample_rate) =>
        let resampled :=
          if sample_rate ≠ 16000 then resampler samples sample_rate 16000 else .ok samples
        match resampled with
        | .error e => ⟨500, .jsonError e⟩
        | .ok ready =>
          let out := m ready
          ⟨200, .jsonResult (String.intercalate " " (out.segments.map String.trim))
            out.language out.duration⟩

/-- File system model: which paths currently exist. -/
def FileSys := String → Bool

/-- Model of os.unlink wrapped in the try block that ignores a missing
file: total, removes the path when present, leaves the rest alone. -/
def unlinkIfPresent (fs : FileSys) (p : String) : FileSys :=
  fun q => if q = p then false else fs q

/-- Result of the termination handler: the final file system and the
process exit code passed to sys.exit. -/
structure Shutdown where
  fs : FileSys
  exitCode : Nat

/-- Embedding of handle_sigterm, installed for both the interrupt and the
terminate signal: unlink the socket path ignoring absence, unlink the pid
file when one was configured, again ignoring absence, then exit with code
zero. -/
def handle_sigterm (sockPath : String) (pidfile : Option String) (fs : FileSys) : Shutdown :=
  let fs1 := unlinkIfPresent fs sockPath
  let fs2 :=
    match pidfile with
    | some p => unlinkIfPresent fs1 p
    | none => fs1
  ⟨fs2, 0⟩

/-- Phases a request thread moves through in the transcribe handler, in
source order: decoding the payload, resampling, waiting on the model lock,
invoking the model inside the with block, collecting the segment texts still
inside the with block, and responding after the block released the lock. -/
inductive TPhase where
  | decoding
  | resampling
  | waitingLock
  | inModel
  | collecting
  | responded
deriving DecidableEq

/-- Global state of the concurrency model: the phase of every request
thread and the holder of the process-wide model lock. -/
structure LockState where
  phase : Nat → TPhase
  lock : Option Nat

/-- Initial state: every thread is at the decoding step, the lock is free. -/
def initLockState : LockState := ⟨fun _ => .decoding, none⟩

/-- Update the phase of one thread. -/
def setPhase (s : LockState) (t : Nat) (ph : TPhase) : Nat → TPhase :=
  fun u => if u = t then ph else s.phase u

/-- Interleaving semantics of the transcribe handler body across threads.
Each step advances one thread along the source order; the lock is taken only
when free (the with statement blocks otherwise) and is released at the end
of the with block, right after segment collection; decoding and resampling
steps neither consult nor change the lock. -/
inductive LockStep : LockState → LockState → Prop where
  | decodeStep (s : LockState) (t : Nat) : s.phase t = .decoding →
      LockStep s ⟨setPhase s t .resampling, s.lock⟩
  | resampleStep (s : LockState) (t : Nat) : s.phase t = .resampling →
      LockStep s ⟨setPhase s t .waitingLock, s.lock⟩
  | acquireStep (s : LockState) (t : Nat) : s.phase t = .waitingLock → s.lock = none →
      LockStep s ⟨setPhase s t .inModel, some t⟩
  | modelStep (s : LockState) (t : Nat) : s.phase t = .inModel →
      LockStep s ⟨setPhase s t .collecting, s.lock⟩
  | releaseStep (s : LockState) (t : Nat) : s.phase t = .collecting →
      LockStep s ⟨setPhase s t .responded, none⟩

/-- States reachable from the initial state by interleaved steps. -/
def ReachableLS (s : LockState) : Prop :=
  Relation.ReflTransGen LockStep initLockState s

/-- A thread is inside the model critical section: between a successful
lock acquisition and the release at the end of the with block. -/
def inModelSection (s : LockState) (t : Nat) : Prop :=
  s.phase t = .inModel ∨ s.phase t = .collecting

/-- First intermediate state of the concurrency demonstration: thread zero
has decoded. -/
def lockDemo1 : LockState := ⟨setPhase initLockState 0 .resampling, none⟩

/-- Second intermediate state: thread zero has resampled and is about to
enter the with block. -/
def lockDemo2 : LockState := ⟨setPhase lockDemo1 0 .waitingLock, none⟩

/-- Third intermediate state: thread zero holds the lock and is invoking
the model. -/
def lockDemo3 : LockState := ⟨setPhase lockDemo2 0 .inModel, some 0⟩

/-- A concrete model stub used to instantiate handler theorems. -/
def stubModel : List ℚ → ModelOutput := fun _ => ⟨[], "en", 0⟩

/-- Value of one output entry of the fallback interpolation, at ratio r:
the linear mix of the input entries left of and right of the source
position, used to phrase the resampler lemmas compactly. -/
def lerpAt (samples : List ℚ) (r : ℚ) (i : Nat) : ℚ :=
  samples.getD (⌊(i : ℚ) / r⌋).toNat 0 * (1 - ((i : ℚ) / r - (⌊(i : ℚ) / r⌋ : ℚ))) +
    samples.getD (min (⌊(i : ℚ) / r⌋ + 1) ((samples.length : Int) - 1)).toNat 0 *
      ((i : ℚ) / r - (⌊(i : ℚ) / r⌋ : ℚ))

example : waveOpen zeroFrameWav = .ok ⟨1, 2, 8000, 0, []⟩ := rfl
example : read_wav_bytes zeroFrameWav = .ok ([], 8000) := rfl
example : waveOpen twoSampleWav = .ok ⟨1, 2, 8000, 4, [0, 64, 0, 128]⟩ := rfl
example : waveOpen oddByteWav = .ok ⟨3, 1, 8000, 3, [1, 2, 3]⟩ := rfl
example : read_wav_bytes oddByteWav =
    .error "buffer size must be a multiple of element size" := rfl
example : waveOpen stereoWav = .ok ⟨2, 2, 44100, 4, [0, 64, 0, 192]⟩ := rfl
example : npFrombufferInt16 [0, 64, 0, 128] = .ok [16384, -32768] := rfl
example : waveOpen [1, 2, 3] = .error "" := rfl
example : waveOpen [1, 2, 3, 4, 5, 6, 7, 8, 9] = .error "file does not start with RIFF id" := rfl

/-- Looking up below the length agrees with the total default lookup. -/
lemma getD_of_lt (l : List ℚ) (n : Nat) (h : n < l.length) : l.getD n 0 = l.get ⟨n, h⟩ := by
  rw [List.getD_eq_getElem?_getD, List.getElem?_eq_getElem h]
  rfl

/-- A traversal whose body succeeds pointwise succeeds and maps. -/
lemma mapM_ok {β : Type} (fn : Nat → Except String β) (g : Nat → β) :
    ∀ l : List Nat, (∀ a ∈ l, fn a = .ok (g a)) → l.mapM fn = .ok (l.map g) := by
  intro l
  induction l with
  | nil => intro _; rfl
  | cons a l ih =>
    intro h
    rw [List.mapM_cons, h a (List.mem_cons_self a l), ih fun b hb => h b (List.mem_cons_of_mem a hb)]
    rfl

/-- Array indexing succeeds at a nonnegative in-range index. -/
lemma npIndex_ok (xs : List ℚ) (i : Int) (h0 : 0 ≤ i) (h1 : i < (xs.length : Int)) :
    npIndex xs i = .ok (xs.getD i.toNat 0) := by
  simp only [npIndex, if_neg (not_lt.mpr h0)]
  rw [if_pos ⟨h0, h1⟩]

/-- A reinterpreted 16-bit value is in the signed 16-bit range. -/
lemma toInt16_bound (v : Nat) : -32768 ≤ toInt16 v ∧ toInt16 v < 32768 := by
  unfold toInt16
  have hm : v % 65536 < 65536 := Nat.mod_lt v (by norm_num)
  split_ifs with h
  · omega
  · omega

/-- Every sample produced by the 16-bit reinterpretation is in range. -/
lemma int16Pairs_mem_bound : ∀ (bs : Bytes) (v : Int), v ∈ int16Pairs bs →
    -32768 ≤ v ∧ v < 32768
  | [], v, hv => by simp [int16Pairs] at hv
  | [_], v, hv => by simp [int16Pairs] at hv
  | lo :: hi :: rest, v, hv => by
    rw [int16Pairs] at hv
    rcases List.mem_cons.1 hv with h | h
    · subst h; exact toInt16_bound _
    · exact int16Pairs_mem_bound rest v h

/-- The 16-bit reinterpretation halves the byte count. -/
lemma int16Pairs_length : ∀ bs : Bytes, (int16Pairs bs).length = bs.length / 2
  | [] => by simp [int16Pairs]
  | [_] => by simp [int16Pairs]
  | lo :: hi :: rest => by
    rw [int16Pairs]
    have := int16Pairs_length rest
    simp only [List.length_cons]
    omega

/-- C6: resample is the identity when the source sample rate equals the
target rate, for every buffer contents. -/
theorem resample_identity_same_rate (samples : List ℚ) (rate : Nat) :
    resample samples rate rate = .ok samples := by
  simp [resample]

/-- C2 (amended): every wave parse failure, malformed or truncated,
propagates out of decode carrying exactly the parse failure rendered
description (the empty string for the bare end-of-file and bad-seek
errors); in particular every input not starting with the RIFF id fails,
with the empty description when shorter than the eight header bytes and
the RIFF-id message otherwise, and a concrete truncated container fails
with the empty description; but a well-formed WAV container with zero
frames does not fail: it decodes to an empty sample buffer. -/
theorem read_wav_bytes_error_behaviour :
    (∀ (bs : Bytes) (msg : String), waveOpen bs = .error msg → read_wav_bytes bs = .error msg) ∧
    (∀ bs : Bytes, bs.take 4 ≠ riffId →
      read_wav_bytes bs =
        .error (if bs.length < 8 then "" else "file does not start with RIFF id")) ∧
    read_wav_bytes (zeroFrameWav.take 20) = .error "" ∧
    read_wav_bytes zeroFrameWav = .ok ([], 8000) := by
  refine ⟨fun bs msg h => ?_, fun bs h => ?_, rfl, rfl⟩
  · unfold read_wav_bytes
    rw [h]
  · by_cases h8 : bs.length < 8
    · rw [if_pos h8]
      by_cases h1 : bs.length < 4
      · simp [read_wav_bytes, waveOpen, h1]
      · have h2 : bs.length - 4 < 4 := by omega
        simp [read_wav_bytes, waveOpen, h1, h2]
    · rw [if_neg h8]
      have h1 : ¬ bs.length < 4 := by omega
      have h2 : ¬ bs.length - 4 < 4 := by omega
      simp [read_wav_bytes, waveOpen, h1, h2, h]

/-- C2 counterexample: the claim says decode fails on a well-formed WAV
container with zero frames; on this concrete such container decode
succeeds, returning the empty sample buffer at the container rate. -/
theorem zero_frame_wav_decodes : read_wav_bytes zeroFrameWav = .ok ([], 8000) := rfl

/-- C2 witness: the propagation part applied to a concrete malformed
container the parse rejects with the RIFF-id message, and the
non-RIFF-prefix part applied to a one-byte truncated input, whose bare
end-of-file error has the empty description. -/
theorem read_wav_bytes_error_witness :
    read_wav_bytes [0, 1, 2, 3, 4, 5, 6, 7, 8] = .error "file does not start with RIFF id" ∧
    read_wav_bytes [82] = .error "" := by
  constructor
  · exact read_wav_bytes_error_behaviour.1 [0, 1, 2, 3, 4, 5, 6, 7, 8]
      "file does not start with RIFF id" rfl
  · have h := read_wav_bytes_error_behaviour.2.1 [82] (by decide)
    simpa using h

/-- C4: with the model loaded, an empty payload (the multipart audio field
when present, else the raw body) yields exactly the 400 no-audio-data
response whatever the decoder is (so the decoder is never consulted), and a
nonempty payload the decoder rejects yields exactly the 400
failed-to-read-audio response carrying the decode detail. -/
theorem transcribe_client_error_split (decoder : Bytes → Except String (List ℚ × Nat))
    (resampler : List ℚ → Nat → Nat → Except String (List ℚ))
    (m : List ℚ → ModelOutput) (req : Request) :
    (payloadOf req = [] →
      transcribeHandler decoder resampler (some m) req = ⟨400, .jsonError "no audio data"⟩) ∧
    (∀ e, payloadOf req ≠ [] → decoder (payloadOf req) = .error e →
      transcribeHandler decoder resampler (some m) req =
        ⟨400, .jsonError ("failed to read audio: " ++ e)⟩) := by
  constructor
  · intro h
    simp [transcribeHandler, h]
  · intro e h hd
    simp [transcribeHandler, List.isEmpty_iff, h, hd]

/-- C4 witness: the two error responses at concrete requests, one with an
empty raw body, one whose multipart audio field is not a WAV container. -/
theorem transcribe_client_error_witness :
    transcribeHandler read_wav_bytes resample (some stubModel) ⟨none, []⟩ =
      ⟨400, .jsonError "no audio data"⟩ ∧
    transcribeHandler read_wav_bytes resample (some stubModel) ⟨some [0, 1, 2, 3, 4, 5, 6, 7, 8], []⟩ =
      ⟨400, .jsonError ("failed to read audio: " ++ "file does not start with RIFF id")⟩ := by
  constructor
  · exact (transcribe_client_error_split read_wav_bytes resample stubModel ⟨none, []⟩).1 rfl
  · exact (transcribe_client_error_split read_wav_bytes resample stubModel
      ⟨some [0, 1, 2, 3, 4, 5, 6, 7, 8], []⟩).2 "file does not start with RIFF id" (by decide) rfl

/-- C10: the model-loaded check precedes all payload inspection: with no
model every request, the empty one included, gets exactly the 503
model-not-loaded response, and a 400 response is only possible with a
loaded model. -/
theorem transcribe_model_check_first (decoder : Bytes → Except String (List ℚ × Nat))
    (resampler : List ℚ → Nat → Nat → Except String (List ℚ)) (req : Request) :
    transcribeHandler decoder resampler none req = ⟨503, .jsonError "model not loaded"⟩ ∧
    (∀ model, (transcribeHandler decoder resampler model req).status = 400 → model ≠ none) := by
  constructor
  · rfl
  · intro model h
    cases model with
    | none => simp [transcribeHandler] at h
    | some m => simp

/-- C10 witness: the 503 response on an empty request with no model, and
the loadedness of the model behind a concrete 400 response. -/
theorem transcribe_model_check_witness :
    transcribeHandler read_wav_bytes resample none ⟨none, []⟩ =
      ⟨503, .jsonError "model not loaded"⟩ ∧
    (some stubModel : Option (List ℚ → ModelOutput)) ≠ none := by
  constructor
  · exact (transcribe_model_check_first read_wav_bytes resample ⟨none, []⟩).1
  · exact (transcribe_model_check_first read_wav_bytes resample ⟨none, []⟩).2
      (some stubModel) rfl

/-- C8: the termination handler removes the socket path and, when
configured, the pid file, tolerating the absence of either, exits with
code zero, and leaves every other path untouched. -/
theorem handle_sigterm_cleanup (sockPath : String) (pidfile : Option String) (fs : FileSys) :
    (handle_sigterm sockPath pidfile fs).exitCode = 0 ∧
    (handle_sigterm sockPath pidfile fs).fs sockPath = false ∧
    (∀ p, pidfile = some p → (handle_sigterm sockPath pidfile fs).fs p = false) ∧
    (∀ q, q ≠ sockPath → (∀ p, pidfile = some p → q ≠ p) →
      (handle_sigterm sockPath pidfile fs).fs q = fs q) := by
  refine ⟨?_, ?_, ?_, ?_⟩
  · cases pidfile <;> rfl
  · cases pidfile with
    | none => simp [handle_sigterm, unlinkIfPresent]
    | some p =>
      simp only [handle_sigterm, unlinkIfPresent]
      split_ifs <;> rfl
  · intro p hp
    subst hp
    simp [handle_sigterm, unlinkIfPresent]
  · intro q hq hp
    cases pidfile with
    | none => simp [handle_sigterm, unlinkIfPresent, hq]
    | some p => simp [handle_sigterm, unlinkIfPresent, hq, hp p rfl]

/-- Truncation of a rational between n and n + 1 is n. -/
lemma toNat_floor_eq (q : ℚ) (n : Nat) (h1 : (n : ℚ) ≤ q) (h2 : q < n + 1) :
    (⌊q⌋).toNat = n := by
  have h : ⌊q⌋ = (n : Int) := by
    rw [Int.floor_eq_iff]
    constructor
    · push_cast
      linarith
    · push_cast
      linarith
  rw [h, Int.toNat_natCast]

/-- Bounds of the two interpolation indices for every output index. -/
lemma resample_index_bounds (len : Nat) (r : ℚ) (hr : 0 < r) (i : Nat)
    (hi : i < (⌊(len : ℚ) * r⌋).toNat) :
    0 ≤ ⌊(i : ℚ) / r⌋ ∧ ⌊(i : ℚ) / r⌋ < (len : Int) ∧
    0 ≤ min (⌊(i : ℚ) / r⌋ + 1) ((len : Int) - 1) ∧
    min (⌊(i : ℚ) / r⌋ + 1) ((len : Int) - 1) < (len : Int) := by
  have hlen : 0 < len := by
    rcases Nat.eq_zero_or_pos len with h0 | h
    · subst h0; simp at hi
    · exact h
  have hfl0 : 0 ≤ ⌊(i : ℚ) / r⌋ := Int.floor_nonneg.mpr (div_nonneg (Nat.cast_nonneg i) hr.le)
  have hilt : (i : ℚ) + 1 ≤ (len : ℚ) * r := by
    have h1 : (i : Int) < ⌊(len : ℚ) * r⌋ := Int.lt_toNat.mp hi
    have h2 : (i : Int) + 1 ≤ ⌊(len : ℚ) * r⌋ := h1
    have h3 := Int.le_floor.mp h2
    push_cast at h3
    linarith
  have hplt : (i : ℚ) / r < (len : ℚ) := by
    rw [div_lt_iff₀ hr]
    linarith
  have hfllt : ⌊(i : ℚ) / r⌋ < (len : Int) := Int.floor_lt.mpr (by exact_mod_cast hplt)
  have hlen1 : 1 ≤ (len : Int) := by exact_mod_cast hlen
  omega

/-- An entry of the map of a function over an initial segment. -/
lemma getD_map_range {g : Nat → ℚ} {n i : Nat} (h : i < n) :
    (List.map g (List.range n)).getD i 0 = g i := by
  rw [getD_of_lt _ _ (by simpa using h)]
  simp [List.get_eq_getElem]

/-- Evaluation of resample in both paths: it always succeeds, the output
length is the truncation of input length times the rate ratio, and each
entry is the linear interpolation value. -/
lemma resample_eval (samples : List ℚ) (from_rate to_rate : Nat)
    (hf : 0 < from_rate) (ht : 0 < to_rate) :
    ∃ out : List ℚ, resample samples from_rate to_rate = .ok out ∧
      out.length = (⌊(samples.length : ℚ) * ((to_rate : ℚ) / (from_rate : ℚ))⌋).toNat ∧
      ∀ i : Nat, i < (⌊(samples.length : ℚ) * ((to_rate : ℚ) / (from_rate : ℚ))⌋).toNat →
        out.getD i 0 = lerpAt samples ((to_rate : ℚ) / (from_rate : ℚ)) i := by
  have hr : 0 < (to_rate : ℚ) / (from_rate : ℚ) :=
    div_pos (by exact_mod_cast ht) (by exact_mod_cast hf)
  by_cases hft : from_rate = to_rate
  · subst hft
    have hr1 : ((from_rate : ℚ) / (from_rate : ℚ)) = 1 :=
      div_self (Nat.cast_ne_zero.mpr hf.ne')
    refine ⟨samples, by simp [resample], ?_, ?_⟩
    · rw [hr1, mul_one, Int.floor_natCast, Int.toNat_natCast]
    · intro i hi
      rw [hr1, mul_one, Int.floor_natCast, Int.toNat_natCast] at hi
      unfold lerpAt
      rw [hr1, div_one, Int.floor_natCast, Int.toNat_natCast]
      push_cast
      rw [sub_self, mul_zero, add_zero, sub_zero, mul_one]
  · refine ⟨(List.range ((⌊(samples.length : ℚ) * ((to_rate : ℚ) / (from_rate : ℚ))⌋).toNat)).map
      (lerpAt samples ((to_rate : ℚ) / (from_rate : ℚ))), ?_, by simp, fun i hi => getD_map_range hi⟩
    simp only [resample, hft, if_false]
    refine mapM_ok _ _ _ (fun a ha => ?_)
    have ha' : a < (⌊(samples.length : ℚ) * ((to_rate : ℚ) / (from_rate : ℚ))⌋).toNat :=
      List.mem_range.mp ha
    obtain ⟨b1, b2, b3, b4⟩ :=
      resample_index_bounds samples.length ((to_rate : ℚ) / (from_rate : ℚ)) hr a ha'
    rw [npIndex_ok _ _ b1 b2, npIndex_ok _ _ b3 b4]
    rfl

/-- C3: the fallback resampler is total for positive rates: it never
fails, its length is the truncation of length times ratio, the two indices
used for every output entry are within bounds, and each output entry is the
linear interpolation input(left)*(1-frac) + input(right)*frac at source
position p = i/(target/source), left = floor p, right = min (left+1)
(len-1), frac = p - left. -/
theorem resample_fallback_formula (samples : List ℚ) (from_rate to_rate : Nat)
    (hf : 0 < from_rate) (ht : 0 < to_rate) :
    ∃ out : List ℚ, resample samples from_rate to_rate = .ok out ∧
      out.length = (⌊(samples.length : ℚ) * ((to_rate : ℚ) / (from_rate : ℚ))⌋).toNat ∧
      ∀ i : Nat, (hi : i < out.length) →
        0 ≤ ⌊(i : ℚ) / ((to_rate : ℚ) / (from_rate : ℚ))⌋ ∧
        ⌊(i : ℚ) / ((to_rate : ℚ) / (from_rate : ℚ))⌋ < (samples.length : Int) ∧
        0 ≤ min (⌊(i : ℚ) / ((to_rate : ℚ) / (from_rate : ℚ))⌋ + 1) ((samples.length : Int) - 1) ∧
        min (⌊(i : ℚ) / ((to_rate : ℚ) / (from_rate : ℚ))⌋ + 1) ((samples.length : Int) - 1) <
          (samples.length : Int) ∧
        out.get ⟨i, hi⟩ =
          samples.getD (⌊(i : ℚ) / ((to_rate : ℚ) / (from_rate : ℚ))⌋).toNat 0 *
              (1 - ((i : ℚ) / ((to_rate : ℚ) / (from_rate : ℚ)) -
                (⌊(i : ℚ) / ((to_rate : ℚ) / (from_rate : ℚ))⌋ : ℚ))) +
            samples.getD
              (min (⌊(i : ℚ) / ((to_rate : ℚ) / (from_rate : ℚ))⌋ + 1)
                ((samples.length : Int) - 1)).toNat 0 *
              ((i : ℚ) / ((to_rate : ℚ) / (from_rate : ℚ)) -
                (⌊(i : ℚ) / ((to_rate : ℚ) / (from_rate : ℚ))⌋ : ℚ)) := by
  obtain ⟨out, hok, hlen, hpt⟩ := resample_eval samples from_rate to_rate hf ht
  have hr : 0 < (to_rate : ℚ) / (from_rate : ℚ) :=
    div_pos (by exact_mod_cast ht) (by exact_mod_cast hf)
  refine ⟨out, hok, hlen, fun i hi => ?_⟩
  have hi' : i < (⌊(samples.length : ℚ) * ((to_rate : ℚ) / (from_rate : ℚ))⌋).toNat :=
    hlen ▸ hi
  obtain ⟨b1, b2, b3, b4⟩ :=
    resample_index_bounds samples.length ((to_rate : ℚ) / (from_rate : ℚ)) hr i hi'
  have heq := hpt i hi'
  rw [getD_of_lt out i hi] at heq
  exact ⟨b1, b2, b3, b4, heq⟩

/-- C3 witness: upsampling a concrete two-entry buffer from 8000 Hz to
16000 Hz succeeds with four entries. -/
theorem resample_fallback_formula_witness :
    ∃ out : List ℚ, resample [(1 : ℚ), 2] 8000 16000 = .ok out ∧ out.length = 4 := by
  obtain ⟨out, hok, hlen, _⟩ :=
    resample_fallback_formula [(1 : ℚ), 2] 8000 16000 (by norm_num) (by norm_num)
  refine ⟨out, hok, ?_⟩
  rw [hlen]
  exact toNat_floor_eq _ 4 (by push_cast; norm_num) (by push_cast; norm_num)

/-- C1 (amended): for differing positive rates the fallback resampler
returns a buffer whose length is the truncation (floor, not round) of
len(buffer) times targetRate over sourceRate. -/
theorem resample_fallback_length (samples : List ℚ) (from_rate to_rate : Nat)
    (hf : 0 < from_rate) (ht : 0 < to_rate) (hne : from_rate ≠ to_rate) :
    ∃ out : List ℚ, resample samples from_rate to_rate = .ok out ∧
      (out.length : Int) = ⌊((samples.length * to_rate : ℕ) : ℚ) / (from_rate : ℚ)⌋ := by
  obtain ⟨out, hok, hlen, _⟩ := resample_eval samples from_rate to_rate hf ht
  refine ⟨out, hok, ?_⟩
  rw [hlen, Int.toNat_of_nonneg (Int.floor_nonneg.mpr (by positivity))]
  rw [show ((samples.length : ℚ)) * ((to_rate : ℚ) / (from_rate : ℚ)) =
    ((samples.length * to_rate : ℕ) : ℚ) / (from_rate : ℚ) by push_cast; ring]

/-- C1 counterexample: a one-entry buffer resampled from 10000 Hz to
9000 Hz (ratio 0.9, inside the range the claim covers) yields the empty
buffer, of length 0, while the claim calls for length round(1 * 9000/10000)
= round(0.9) = 1. -/
theorem resample_round_counterexample :
    resample [(0 : ℚ)] 10000 9000 = .ok [] ∧ (round ((1 * 9000 : ℚ) / 10000) : Int) = 1 := by
  constructor
  · obtain ⟨out, hok, hlen, _⟩ :=
      resample_eval [(0 : ℚ)] 10000 9000 (by norm_num) (by norm_num)
    have h0 : out.length = 0 := by
      rw [hlen]
      exact toNat_floor_eq _ 0 (by push_cast; norm_num) (by push_cast; norm_num)
    rw [List.length_eq_zero.mp h0] at hok
    exact hok
  · rw [round_eq, show (⌊(1 * 9000 : ℚ) / 10000 + 1 / 2⌋ : Int) = 1 by
      rw [Int.floor_eq_iff] <;> norm_num]

/-- C1 witness: the amended length law at a concrete buffer and rate
pair, where the truncated length is four. -/
theorem resample_fallback_length_witness :
    ∃ out : List ℚ, resample [(1 : ℚ), 2] 8000 16000 = .ok out ∧ (out.length : Int) = 4 := by
  obtain ⟨out, hok, hlen⟩ :=
    resample_fallback_length [(1 : ℚ), 2] 8000 16000 (by norm_num) (by norm_num) (by norm_num)
  refine ⟨out, hok, ?_⟩
  rw [hlen, Int.floor_eq_iff]
  constructor
  · push_cast
    norm_num
  · push_cast
    norm_num

/-- C8 witness: a concrete shutdown from a file system holding every path:
exit code zero, both artifacts gone, an unrelated path untouched. -/
theorem handle_sigterm_cleanup_witness :
    (handle_sigterm "sock" (some "pid") (fun _ => true)).exitCode = 0 ∧
    (handle_sigterm "sock" (some "pid") (fun _ => true)).fs "sock" = false ∧
    (handle_sigterm "sock" (some "pid") (fun _ => true)).fs "pid" = false ∧
    (handle_sigterm "sock" (some "pid") (fun _ => true)).fs "other" = true := by
  obtain ⟨h1, h2, h3, h4⟩ := handle_sigterm_cleanup "sock" (some "pid") (fun _ => true)
  exact ⟨h1, h2, h3 "pid" rfl, h4 "other" (by decide) (fun p hp => by
    rw [Option.some_inj.mp hp.symm] at *; decide)⟩

/-- Frame reading never reads past the readable data region of a complete
file. -/
lemma take_frames_length (w : WavInfo) (hfull : w.data.length = w.dataSize) :
    (w.data.take (w.nframes * w.framesize)).length = w.nframes * w.framesize := by
  rw [List.length_take, hfull]
  exact min_eq_left (Nat.div_mul_le_self _ _)

/-- Decode after a successful wave open is fully determined by the frame
bytes read. -/
lemma read_wav_bytes_of_waveOpen (bs : Bytes) (w : WavInfo) (hw : waveOpen bs = .ok w) :
    read_wav_bytes bs =
      match npFrombufferInt16 (w.data.take (w.nframes * w.framesize)) with
      | .error e => .error e
      | .ok ints => .ok (ints.map (fun (s : Int) => (s : ℚ) / 32768), w.framerate) := by
  unfold read_wav_bytes
  rw [hw]

/-- C9 (amended): decode never inspects the channel count or sample width
beyond the header checks: whenever the header parses and the file holds
its declared data bytes, the samples are exactly the raw frame bytes
reinterpreted as 16-bit values, whatever the channel count or declared bit
depth, with frames x channels x bytesPerSample div 2 samples, when that
byte count is even; when it is odd, decode fails instead of being
accepted. -/
theorem read_wav_bytes_flat_reinterpretation (bs : Bytes) (w : WavInfo)
    (hw : waveOpen bs = .ok w) (hfull : w.data.length = w.dataSize) :
    ((w.nframes * w.framesize) % 2 = 0 →
      read_wav_bytes bs = .ok
        ((int16Pairs (w.data.take (w.nframes * w.framesize))).map (fun (s : Int) => (s : ℚ) / 32768),
          w.framerate) ∧
      (int16Pairs (w.data.take (w.nframes * w.framesize))).length =
        w.nframes * w.framesize / 2) ∧
    ((w.nframes * w.framesize) % 2 ≠ 0 →
      read_wav_bytes bs = .error "buffer size must be a multiple of element size") := by
  have hlen := take_frames_length w hfull
  rw [read_wav_bytes_of_waveOpen bs w hw]
  constructor
  · intro he
    constructor
    · unfold npFrombufferInt16
      rw [hlen, if_pos he]
    · rw [int16Pairs_length, hlen]
  · intro ho
    unfold npFrombufferInt16
    rw [hlen, if_neg ho]

/-- C9 counterexample: a WAV container whose header parses (three
channels, 8-bit depth, one frame, so three data bytes) is not accepted:
decode fails on the odd byte count, against the claim that every container
with a parsing header is accepted with frames x channels x
(bytesPerSample / 2) samples. -/
theorem read_wav_bytes_odd_byte_counterexample :
    waveOpen oddByteWav = .ok ⟨3, 1, 8000, 3, [1, 2, 3]⟩ ∧
    read_wav_bytes oddByteWav = .error "buffer size must be a multiple of element size" :=
  ⟨rfl, rfl⟩

/-- C9 witness: a stereo 16-bit file is decoded, without channel mixdown,
to the flat interleaved reinterpretation of its four data bytes. -/
theorem read_wav_bytes_flat_witness :
    read_wav_bytes stereoWav =
      .ok ([((16384 : Int) : ℚ) / 32768, ((-16384 : Int) : ℚ) / 32768], 44100) := by
  have h := (read_wav_bytes_flat_reinterpretation stereoWav ⟨2, 2, 44100, 4, [0, 64, 0, 192]⟩
    rfl rfl).1 (by decide)
  exact h.1

/-- C7: every sample a successful decode returns is a signed 16-bit
integer divided by 32768, hence lies in the half-open interval from -1
inclusive to 1 exclusive. -/
theorem read_wav_bytes_sample_range (bs : Bytes) (samples : List ℚ) (rate : Nat)
    (h : read_wav_bytes bs = .ok (samples, rate)) :
    ∀ x ∈ samples, ∃ s : Int, -32768 ≤ s ∧ s < 32768 ∧ x = (s : ℚ) / 32768 ∧
      (-1 : ℚ) ≤ x ∧ x < 1 := by
  intro x hx
  cases hw : waveOpen bs with
  | error e => rw [read_wav_bytes, hw] at h; exact absurd h (by simp)
  | ok w =>
    rw [read_wav_bytes_of_waveOpen bs w hw] at h
    cases hn : npFrombufferInt16 (w.data.take (w.nframes * w.framesize)) with
    | error e => rw [hn] at h; exact absurd h (by simp)
    | ok ints =>
      rw [hn] at h
      have hpair := (Except.ok.injEq _ _).mp h
      have hsamples : ints.map (fun (s : Int) => (s : ℚ) / 32768) = samples := congrArg Prod.fst hpair
      have hints : ints = int16Pairs (w.data.take (w.nframes * w.framesize)) := by
        unfold npFrombufferInt16 at hn
        split_ifs at hn
        exact ((Except.ok.injEq _ _).mp hn).symm
      rw [← hsamples] at hx
      obtain ⟨s, hs, hxs⟩ := List.mem_map.mp hx
      have hb : -32768 ≤ s ∧ s < 32768 := by
        rw [hints] at hs
        exact int16Pairs_mem_bound _ s hs
      refine ⟨s, hb.1, hb.2, hxs.symm, ?_, ?_⟩
      · rw [← hxs, le_div_iff₀ (by norm_num : (0 : ℚ) < 32768)]
        have hc : ((-32768 : Int) : ℚ) ≤ (s : ℚ) := by exact_mod_cast hb.1
        push_cast at hc
        linarith
      · rw [← hxs, div_lt_one (by norm_num : (0 : ℚ) < 32768)]
        exact_mod_cast hb.2

/-- C7 witness: the two samples of a concrete decode, including the most
negative representable one, are in range. -/
theorem read_wav_bytes_sample_range_witness :
    (-1 : ℚ) ≤ ((-32768 : Int) : ℚ) / 32768 ∧ ((-32768 : Int) : ℚ) / 32768 < 1 := by
  have h := read_wav_bytes_sample_range twoSampleWav
    [((16384 : Int) : ℚ) / 32768, ((-32768 : Int) : ℚ) / 32768] 8000 rfl
  obtain ⟨s, _, _, _, h1, h2⟩ := h (((-32768 : Int) : ℚ) / 32768) (by simp)
  exact ⟨h1, h2⟩

/-- Lock invariant: a thread is in the model critical section exactly when
it holds the lock. -/
def LockInv (s : LockState) : Prop := ∀ t, inModelSection s t ↔ s.lock = some t

/-- The initial state satisfies the lock invariant. -/
lemma lockInv_init : LockInv initLockState := by
  intro t
  simp [initLockState, inModelSection]

/-- Every interleaved step preserves the lock invariant. -/
lemma lockInv_step (s1 s2 : LockState) (h : LockStep s1 s2) (ih : LockInv s1) : LockInv s2 := by
  cases h with
  | decodeStep t0 hph =>
    intro t
    by_cases ht : t = t0
    · subst ht
      simp only [inModelSection, setPhase, if_pos rfl]
      constructor
      · intro hc
        rcases hc with hc | hc <;> exact absurd hc (by simp)
      · intro hl
        have := (ih t).mpr hl
        rw [inModelSection, hph] at this
        rcases this with hc | hc <;> exact absurd hc (by simp)
    · have hsec : inModelSection ⟨setPhase s1 t0 .resampling, s1.lock⟩ t ↔ inModelSection s1 t := by
        simp [inModelSection, setPhase, ht]
      rw [hsec]
      exact ih t
  | resampleStep t0 hph =>
    intro t
    by_cases ht : t = t0
    · subst ht
      simp only [inModelSection, setPhase, if_pos rfl]
      constructor
      · intro hc
        rcases hc with hc | hc <;> exact absurd hc (by simp)
      · intro hl
        have := (ih t).mpr hl
        rw [inModelSection, hph] at this
        rcases this with hc | hc <;> exact absurd hc (by simp)
    · have hsec : inModelSection ⟨setPhase s1 t0 .waitingLock, s1.lock⟩ t ↔ inModelSection s1 t := by
        simp [inModelSection, setPhase, ht]
      rw [hsec]
      exact ih t
  | acquireStep t0 hph hl =>
    intro t
    by_cases ht : t = t0
    · subst ht
      simp [inModelSection, setPhase]
    · have hsec : inModelSection ⟨setPhase s1 t0 .inModel, some t0⟩ t ↔ inModelSection s1 t := by
        simp [inModelSection, setPhase, ht]
      rw [hsec]
      constructor
      · intro hc
        have := (ih t).mp hc
        rw [hl] at this
        exact absurd this (by simp)
      · intro hc
        exact absurd (Option.some_inj.mp hc) (fun hh => ht hh.symm)
  | modelStep t0 hph =>
    intro t
    by_cases ht : t = t0
    · subst ht
      have hl := (ih t).mp (Or.inl hph)
      simp [inModelSection, setPhase, hl]
    · have hsec : inModelSection ⟨setPhase s1 t0 .collecting, s1.lock⟩ t ↔ inModelSection s1 t := by
        simp [inModelSection, setPhase, ht]
      rw [hsec]
      exact ih t
  | releaseStep t0 hph =>
    intro t
    by_cases ht : t = t0
    · subst ht
      simp only [inModelSection, setPhase, if_pos rfl]
      constructor
      · intro hc
        rcases hc with hc | hc <;> exact absurd hc (by simp)
      · intro hc
        exact absurd hc (by simp)
    · have hsec : inModelSection ⟨setPhase s1 t0 .responded, none⟩ t ↔ inModelSection s1 t := by
        simp [inModelSection, setPhase, ht]
      rw [hsec]
      constructor
      · intro hc
        have h1 := (ih t).mp hc
        have h2 := (ih t0).mp (Or.inr hph)
        rw [h1] at h2
        exact absurd (Option.some_inj.mp h2) ht
      · intro hc
        exact absurd hc (by simp)

/-- Every reachable state satisfies the lock invariant. -/
lemma lockInv_reachable (s : LockState) (h : ReachableLS s) : LockInv s := by
  induction h with
  | refl => exact lockInv_init
  | tail _ hstep ih => exact lockInv_step _ _ hstep ih

/-- C5: in every reachable interleaving of transcription requests at most
one thread is between lock acquisition and the release that follows
segment collection (so model invocations never overlap), and a thread
decoding or resampling never holds the lock. -/
theorem model_lock_serializes (s : LockState) (hs : ReachableLS s) :
    (∀ t1 t2, inModelSection s t1 → inModelSection s t2 → t1 = t2) ∧
    (∀ t, s.phase t = .decoding ∨ s.phase t = .resampling → s.lock ≠ some t) := by
  have inv := lockInv_reachable s hs
  constructor
  · intro t1 t2 h1 h2
    have e1 := (inv t1).mp h1
    have e2 := (inv t2).mp h2
    rw [e1] at e2
    exact Option.some_inj.mp e2
  · intro t hph hl
    have := (inv t).mpr hl
    rcases hph with h | h <;> rcases this with hc | hc <;> rw [h] at hc <;>
      exact absurd hc (by simp)

/-- C5 witness: a concrete reachable state in which thread zero holds the
lock inside the model call; thread one, still decoding, does not hold it. -/
theorem model_lock_serializes_witness : lockDemo3.lock ≠ some 1 := by
  have h1 : LockStep initLockState lockDemo1 := LockStep.decodeStep initLockState 0 rfl
  have h2 : LockStep lockDemo1 lockDemo2 := LockStep.resampleStep lockDemo1 0 rfl
  have h3 : LockStep lockDemo2 lockDemo3 := LockStep.acquireStep lockDemo2 0 rfl rfl
  have hr : ReachableLS lockDemo3 :=
    Relation.ReflTransGen.tail (Relation.ReflTransGen.tail
      (Relation.ReflTransGen.single h1) h2) h3
  exact (model_lock_serializes lockDemo3 hr).2 1 (Or.inl rfl)

end WhisperServer
